import Mathlib

/-!
Verification of the LaTexVision segmentation core.

Shallow embedding of the geometry / refinement pipeline shared by the
main-thread entry point (segmentImage) and the background worker
(cvWorker.js, message segment).  JS numbers are modelled as rationals,
the int32 component statistics as integers.  The opaque OpenCV image
primitives (threshold, morphology, connected components, encoding) are
not reimplemented: the pipeline is embedded from the point where the
component statistics have been read, which is where all the claims live,
and the image post-processing steps are modelled symbolically.
-/

/-- Bounding box in image pixel coordinates, as in the BoundingBox
interface of the source (fields x, y, width, height). -/
structure BoundingBox where
  x : ℚ
  y : ℚ
  width : ℚ
  height : ℚ
deriving DecidableEq, Repr

/-- SegmentationConfig from the source: minimum component size, crop
padding, morphological kernel size and the row tolerance used by the
ordering comparator. -/
structure SegmentationConfig where
  minW : ℚ
  minH : ℚ
  padx : ℚ
  pady : ℚ
  kernelW : ℚ
  kernelH : ℚ
  yTolerance : ℚ
deriving DecidableEq, Repr

/-- ColumnSpecificCut from the source: a horizontal paragraph cut
tagged with the column it applies to. -/
structure ColumnSpecificCut where
  y : ℚ
  colIdx : ℕ
deriving DecidableEq, Repr

/-- The containment test used inside filterNestedBoxes (both copies):
b1 lies inside b2 up to a tolerance of one pixel on every edge. -/
def insideB (b1 b2 : BoundingBox) : Bool :=
  decide (b1.x ≥ b2.x - 1 ∧ b1.y ≥ b2.y - 1 ∧
    b1.x + b1.width ≤ b2.x + b2.width + 1 ∧
    b1.y + b1.height ≤ b2.y + b2.height + 1)

/-- The inner boxes.some of filterNestedBoxes: box b1, sitting at index
i of the list, is inside some other entry (different index j). -/
def isInsideAnother (boxes : List BoundingBox) (i : ℕ) (b1 : BoundingBox) : Bool :=
  boxes.enum.any fun q => decide (i ≠ q.1) && insideB b1 q.2

/-- filterNestedBoxes (identical in part_001 and cvWorker.js): keep the
entries that are not contained, up to the one pixel tolerance, in some
entry at a different index of the input list. -/
def filterNestedBoxes (boxes : List BoundingBox) : List BoundingBox :=
  (boxes.enum.filter fun p => ! isInsideAnother boxes p.1 p.2).map Prod.snd

/-- isBoxInMask (identical in both contexts): the center of the box
falls inside some mask rectangle. -/
def isBoxInMask (box : BoundingBox) (masks : List BoundingBox) : Bool :=
  let centerX := box.x + box.width / 2
  let centerY := box.y + box.height / 2
  masks.any fun mask =>
    decide (centerX ≥ mask.x ∧ centerX ≤ mask.x + mask.width ∧
      centerY ≥ mask.y ∧ centerY ≤ mask.y + mask.height)

/-- Stable insertion into an already sorted accumulator; an element goes
after every element the comparator does not place strictly after it. -/
def insertSorted {α : Type} (cmp : α → α → ℚ) (a : α) : List α → List α
  | [] => [a]
  | h :: t => if cmp h a ≤ 0 then h :: insertSorted cmp a t else a :: h :: t

/-- Model of Array.prototype.sort with a numeric comparator: a stable
comparison sort, as required by the ECMAScript specification.  For the
comparators of this development, restricted to the inputs the theorems
use, the comparator is consistent, so every stable sort produces the
list computed here. -/
def jsSortBy {α : Type} (cmp : α → α → ℚ) (l : List α) : List α :=
  l.foldl (fun acc a => insertSorted cmp a acc) []

/-- The sorted copy of the column cut list, sortedVCuts in the source:
numeric ascending sort with comparator a - b. -/
def sortedAsc (cuts : List ℚ) : List ℚ :=
  jsSortBy (fun a b => a - b) cuts

/-- getColIdx (both contexts): count the sorted cuts strictly to the
left of the horizontal midpoint of the box. -/
def getColIdx (sortedVCuts : List ℚ) (box : BoundingBox) : ℕ :=
  let midX := box.x + box.width / 2
  sortedVCuts.countP fun cutX => decide (midX > cutX)

/-- One vertical cut applied to one segment: split it when the cut is
strictly inside the x span, otherwise keep it. -/
def splitSegmentV (cutX : ℚ) (segment : BoundingBox) : List BoundingBox :=
  if cutX > segment.x ∧ cutX < segment.x + segment.width then
    [⟨segment.x, segment.y, cutX - segment.x, segment.height⟩,
     ⟨cutX, segment.y, segment.x + segment.width - cutX, segment.height⟩]
  else [segment]

/-- One horizontal cut applied to one segment: split it when the cut is
strictly inside the y span, otherwise keep it. -/
def splitSegmentH (cutY : ℚ) (segment : BoundingBox) : List BoundingBox :=
  if cutY > segment.y ∧ cutY < segment.y + segment.height then
    [⟨segment.x, segment.y, segment.width, cutY - segment.y⟩,
     ⟨segment.x, cutY, segment.width, segment.y + segment.height - cutY⟩]
  else [segment]

/-- The inner loop of the vertical splitting stage: apply the cuts, in
the order given, to the running segment list of one box. -/
def applyCutsV (vCuts : List ℚ) (box : BoundingBox) : List BoundingBox :=
  vCuts.foldl (fun segs cutX => segs.flatMap (splitSegmentV cutX)) [box]

/-- Vertical splitting stage of the refiner, guarded on a nonempty cut
list exactly as in the source. -/
def splitBoxesV (vCuts : List ℚ) (boxes : List BoundingBox) : List BoundingBox :=
  if vCuts.length > 0 then boxes.flatMap (applyCutsV vCuts) else boxes

/-- The inner loop of the paragraph splitting stage for one box. -/
def applyCutsH (cuts : List ColumnSpecificCut) (box : BoundingBox) : List BoundingBox :=
  cuts.foldl (fun segs c => segs.flatMap (splitSegmentH c.y)) [box]

/-- Paragraph splitting stage: each box only sees the cuts whose column
tag equals the column index of the box. -/
def splitBoxesH (sortedVCuts : List ℚ) (hCuts : List ColumnSpecificCut)
    (boxes : List BoundingBox) : List BoundingBox :=
  if hCuts.length > 0 then
    boxes.flatMap fun box =>
      applyCutsH (hCuts.filter fun c => decide (c.colIdx = getColIdx sortedVCuts box)) box
  else boxes

/-- avgH: mean height of the boxes after splitting, 25 for an empty
list. -/
def avgHeight (boxes : List BoundingBox) : ℚ :=
  if boxes.length > 0 then
    (boxes.foldl (fun acc b => acc + b.height) 0) / (boxes.length : ℚ)
  else 25

/-- The ordering comparator of the final sort: column index first, then
x inside the avgH times yTolerance row band, then y. -/
def boxCmp (sortedVCuts : List ℚ) (avgH yTolerance : ℚ) (a b : BoundingBox) : ℚ :=
  let colA := getColIdx sortedVCuts a
  let colB := getColIdx sortedVCuts b
  if colA ≠ colB then (colA : ℚ) - (colB : ℚ)
  else
    let yDiff := a.y - b.y
    if |yDiff| < avgH * yTolerance then a.x - b.x else yDiff

/-- The refinement stage shared verbatim by segmentImage and the worker
segment handler: nesting filter, vertical cuts, column scoped paragraph
cuts, then the final comparator sort. -/
def refineBoxes (config : SegmentationConfig) (hCuts : List ColumnSpecificCut)
    (vCuts : List ℚ) (rawBoxes : List BoundingBox) : List BoundingBox :=
  let processed1 := filterNestedBoxes rawBoxes
  let sortedVCuts := sortedAsc vCuts
  let processed2 := splitBoxesV vCuts processed1
  let processed3 := splitBoxesH sortedVCuts hCuts processed2
  jsSortBy (boxCmp sortedVCuts (avgHeight processed3) config.yTolerance) processed3

/-- The padded crop rectangle computed for every final block, clamped
to the image (cols columns, rows rows). -/
def cropRect (cols rows : ℚ) (config : SegmentationConfig) (box : BoundingBox) : BoundingBox :=
  let finalX := max 0 (box.x - config.padx)
  let finalY := max 0 (box.y - config.pady)
  let finalW := min (cols - finalX) (box.width + 2 * config.padx)
  let finalH := min (rows - finalY) (box.height + 2 * config.pady)
  ⟨finalX, finalY, finalW, finalH⟩

/-- One row of the int32 statistics of connectedComponentsWithStats:
leftmost x, topmost y, width, height of one label. -/
structure ComponentStat where
  x : ℤ
  y : ℤ
  w : ℤ
  h : ℤ
deriving DecidableEq, Repr

/-- Raw box extraction of the main thread (segmentImage): skip the
background row 0, drop undersized components, drop components whose
center falls in a mask. -/
def rawBoxesMain (config : SegmentationConfig) (masks : List BoundingBox)
    (stats : List ComponentStat) : List BoundingBox :=
  (stats.drop 1).filterMap fun s =>
    if (s.w : ℚ) < config.minW ∨ (s.h : ℚ) < config.minH then none
    else
      let box : BoundingBox := ⟨(s.x : ℚ), (s.y : ℚ), (s.w : ℚ), (s.h : ℚ)⟩
      if isBoxInMask box masks then none else some box

/-- Raw box extraction of the worker: sizes are compared against the
scaled minima and every coordinate is divided by the scale to map back
to original image space before the mask test. -/
def rawBoxesWorker (scale : ℚ) (config : SegmentationConfig) (masks : List BoundingBox)
    (stats : List ComponentStat) : List BoundingBox :=
  (stats.drop 1).filterMap fun s =>
    if (s.w : ℚ) < config.minW * scale ∨ (s.h : ℚ) < config.minH * scale then none
    else
      let originalBox : BoundingBox :=
        ⟨(s.x : ℚ) / scale, (s.y : ℚ) / scale, (s.w : ℚ) / scale, (s.h : ℚ) / scale⟩
      if isBoxInMask originalBox masks then none else some originalBox

/-- Math.round of JavaScript: round half toward positive infinity. -/
def jround (q : ℚ) : ℤ := ⌊q + 1 / 2⌋

/-- Clamp an integer coordinate to the closed range from 0 to hi. -/
def clampTo (hi v : ℤ) : ℤ := max 0 (min hi v)

/-- A rectangle painted over a mask, given by its two corner points. -/
structure PaintRect where
  x1 : ℤ
  y1 : ℤ
  x2 : ℤ
  y2 : ℤ
deriving DecidableEq, Repr

/-- The mask rectangles the main thread paints (white before the
threshold, black after): round, clamp to the image, skip degenerate
rectangles. -/
def maskPaintRectsMain (cols rows : ℤ) (masks : List BoundingBox) : List PaintRect :=
  masks.filterMap fun mask =>
    let x1 := clampTo (cols - 1) (jround mask.x)
    let y1 := clampTo (rows - 1) (jround mask.y)
    let x2 := clampTo (cols - 1) (jround (mask.x + mask.width))
    let y2 := clampTo (rows - 1) (jround (mask.y + mask.height))
    if x2 > x1 ∧ y2 > y1 then some ⟨x1, y1, x2, y2⟩ else none

/-- The mask rectangles the worker paints on its working copy: the mask
coordinates are first multiplied by the scale, then rounded, clamped
and skipped when degenerate exactly as on the main thread. -/
def maskPaintRectsWorker (scale : ℚ) (cols rows : ℤ) (masks : List BoundingBox) : List PaintRect :=
  masks.filterMap fun mask =>
    let x1 := clampTo (cols - 1) (jround (mask.x * scale))
    let y1 := clampTo (rows - 1) (jround (mask.y * scale))
    let x2 := clampTo (cols - 1) (jround ((mask.x + mask.width) * scale))
    let y2 := clampTo (rows - 1) (jround ((mask.y + mask.height) * scale))
    if x2 > x1 ∧ y2 > y1 then some ⟨x1, y1, x2, y2⟩ else none

/-- TARGET_WIDTH of the worker. -/
def TARGET_WIDTH : ℤ := 1500

/-- The downscale factor chosen by the worker from the source width. -/
def scaleOf (srcCols : ℤ) : ℚ :=
  if srcCols > TARGET_WIDTH then (TARGET_WIDTH : ℚ) / (srcCols : ℚ) else 1

/-- Refined geometry of the main thread, from statistics to the final
ordered box list. -/
def mainRefined (config : SegmentationConfig) (masks : List BoundingBox)
    (hCuts : List ColumnSpecificCut) (vCuts : List ℚ)
    (stats : List ComponentStat) : List BoundingBox :=
  refineBoxes config hCuts vCuts (rawBoxesMain config masks stats)

/-- Refined geometry of the worker for a given scale. -/
def workerRefined (scale : ℚ) (config : SegmentationConfig) (masks : List BoundingBox)
    (hCuts : List ColumnSpecificCut) (vCuts : List ℚ)
    (stats : List ComponentStat) : List BoundingBox :=
  refineBoxes config hCuts vCuts (rawBoxesWorker scale config masks stats)

/-- Two boxes of a region list are in acceptable relative position when
neither is contained in the other up to the one pixel tolerance. -/
def notNestedPair (a b : BoundingBox) : Prop :=
  insideB a b = false ∧ insideB b a = false

/-- Symbolic model of the sub-image an extraction context encodes: the
source snapshot, a rectangular crop of it, a grayscale conversion, or a
rectangular erosion with the given kernel size. -/
inductive ImgExpr where
  | source : ImgExpr
  | crop (x y w h : ℚ) (i : ImgExpr) : ImgExpr
  | grayscale (i : ImgExpr) : ImgExpr
  | eroded (kw kh : ℕ) (i : ImgExpr) : ImgExpr
deriving DecidableEq, Repr

/-- The image the main thread encodes for one block: the padded crop of
the source, converted to grayscale, then eroded with the fixed 2 by 2
rectangular kernel, in that order (part_001, lines 224 to 245). -/
def mainBlockImage (cols rows : ℚ) (config : SegmentationConfig) (box : BoundingBox) : ImgExpr :=
  let r := cropRect cols rows config box
  ImgExpr.eroded 2 2 (ImgExpr.grayscale (ImgExpr.crop r.x r.y r.width r.height ImgExpr.source))

/-- The image the worker encodes for one block: the padded crop of the
source, drawn to the canvas as it is (cvWorker.js, lines 250 to 266). -/
def workerBlockImage (cols rows : ℚ) (config : SegmentationConfig) (box : BoundingBox) : ImgExpr :=
  let r := cropRect cols rows config box
  ImgExpr.crop r.x r.y r.width r.height ImgExpr.source

/-- Whether an encoded image is the post-processed form the spec
describes: a 2 by 2 erosion of a grayscale conversion of a crop of the
source. -/
def isGrayscaleErosionOfCrop : ImgExpr → Bool
  | ImgExpr.eroded 2 2 (ImgExpr.grayscale (ImgExpr.crop _ _ _ _ ImgExpr.source)) => true
  | _ => false

/-- The native buffers a segmentation run acquires from the image
library. -/
inductive BufName where
  | src | workSrc | gray | thresh | labels | statsBuf | centroids
  | kernel | thickenKernel | roi | processed
deriving DecidableEq, Repr

/-- One step of a segmentation run, as far as resource tracking is
concerned: acquire a buffer, release a buffer, or call a fallible
external image primitive (numbered so a run can be told to throw
there). -/
inductive ResStep where
  | acquire (b : BufName) : ResStep
  | release (b : BufName) : ResStep
  | callOp (i : ℕ) : ResStep
deriving DecidableEq, Repr

/-- Run a step list: collect acquired-but-unreleased buffers; when the
operation numbered failAt is reached the run stops there with the throw
flag set, exactly as a thrown JS exception skips the rest of the block. -/
def runSteps (failAt : Option ℕ) : List ResStep → List BufName → List BufName × Bool
  | [], live => (live, false)
  | ResStep.acquire b :: rest, live => runSteps failAt rest (b :: live)
  | ResStep.release b :: rest, live => runSteps failAt rest (live.erase b)
  | ResStep.callOp i :: rest, live =>
      if failAt = some i then (live, true) else runSteps failAt rest live

/-- The worker segment handler as a resource trace (cvWorker.js, lines
77 to 281), with one representative region extraction.  Operations:
0 resize or copyTo, 1 white mask painting, 2 cvtColor, 3 threshold,
4 black mask painting, 5 morphologyEx, 6 dilate, 7 connected
components, 8 imshow, 9 blob conversion.  All release steps sit on the
success path at the end; the catch clause only posts an error message
and releases nothing. -/
def workerSegmentBody : List ResStep := [
  ResStep.acquire BufName.src,
  ResStep.acquire BufName.workSrc,
  ResStep.callOp 0, ResStep.callOp 1,
  ResStep.acquire BufName.gray, ResStep.acquire BufName.thresh,
  ResStep.acquire BufName.labels, ResStep.acquire BufName.statsBuf,
  ResStep.acquire BufName.centroids,
  ResStep.callOp 2, ResStep.callOp 3, ResStep.callOp 4,
  ResStep.acquire BufName.kernel,
  ResStep.callOp 5, ResStep.callOp 6, ResStep.callOp 7,
  ResStep.acquire BufName.roi,
  ResStep.callOp 8, ResStep.callOp 9,
  ResStep.release BufName.roi,
  ResStep.release BufName.src, ResStep.release BufName.workSrc,
  ResStep.release BufName.gray, ResStep.release BufName.thresh,
  ResStep.release BufName.labels, ResStep.release BufName.statsBuf,
  ResStep.release BufName.centroids, ResStep.release BufName.kernel]

/-- Buffers left unreleased when the worker segment handler finishes,
for a run whose operation failAt throws (none = no throw). -/
def workerSegmentLive (failAt : Option ℕ) : List BufName :=
  (runSteps failAt workerSegmentBody []).1

/-- Steps of segmentImage before its try block (part_001, lines 78 to
98): imread, white mask painting (operation 0), then the five fresh
mats. -/
def mainPreTrySteps : List ResStep := [
  ResStep.acquire BufName.src,
  ResStep.callOp 0,
  ResStep.acquire BufName.gray, ResStep.acquire BufName.thresh,
  ResStep.acquire BufName.labels, ResStep.acquire BufName.statsBuf,
  ResStep.acquire BufName.centroids]

/-- Steps inside the try block of segmentImage (part_001, lines 100 to
257), with one representative region extraction.  Operations: 1
cvtColor, 2 threshold, 3 black mask painting, 4 morphologyEx, 5 dilate,
6 connected components, 7 cvtColor of the crop, 8 erode, 9 imshow and
data url encoding. -/
def mainTryBodySteps : List ResStep := [
  ResStep.callOp 1, ResStep.callOp 2, ResStep.callOp 3,
  ResStep.acquire BufName.kernel,
  ResStep.callOp 4, ResStep.callOp 5,
  ResStep.release BufName.kernel,
  ResStep.callOp 6,
  ResStep.acquire BufName.roi,
  ResStep.acquire BufName.processed,
  ResStep.callOp 7,
  ResStep.acquire BufName.thickenKernel,
  ResStep.callOp 8,
  ResStep.release BufName.thickenKernel,
  ResStep.callOp 9,
  ResStep.release BufName.processed,
  ResStep.release BufName.roi]

/-- The releases of the finally block of segmentImage (part_001, lines
259 to 260). -/
def mainFinallySteps : List ResStep := [
  ResStep.release BufName.src, ResStep.release BufName.gray,
  ResStep.release BufName.thresh, ResStep.release BufName.labels,
  ResStep.release BufName.statsBuf, ResStep.release BufName.centroids]

/-- Buffers left unreleased when segmentImage exits: an exception
before the try block propagates with nothing released; inside the try
block the finally releases run whether or not it threw. -/
def mainSegmentLive (failAt : Option ℕ) : List BufName :=
  let pre := runSteps failAt mainPreTrySteps []
  if pre.2 then pre.1
  else
    let body := runSteps failAt mainTryBodySteps pre.1
    (runSteps none mainFinallySteps body.1).1

/-- Messages the worker posts back to the page. -/
inductive WorkerOutMsg where
  | initComplete (success : Bool) : WorkerOutMsg
  | segmentComplete : WorkerOutMsg
  | errorReport (message : String) : WorkerOutMsg
deriving DecidableEq, Repr

/-- The segment branch of the worker onmessage handler (cvWorker.js,
lines 71 to 287): when the engine is not loaded it logs to the console
and returns, posting nothing; otherwise the try block outcome (modelled
by an Except value) is posted as segmentComplete or as a structured
error. -/
def handleSegmentMessage (cvReady : Bool) (outcome : Except String Unit) : List WorkerOutMsg :=
  if ¬ cvReady then []
  else
    match outcome with
    | Except.ok _ => [WorkerOutMsg.segmentComplete]
    | Except.error e => [WorkerOutMsg.errorReport e]

/-- Configuration with zero row tolerance, used by the nesting
counterexample. -/
def cfgNoTol : SegmentationConfig := ⟨0, 0, 0, 0, 0, 0, 0⟩

/-- Two overlapping but non-nested raw boxes: the second reaches 50
pixels below the first. -/
def rawOverlap : List BoundingBox := [⟨0, 0, 100, 30⟩, ⟨0, 20, 100, 60⟩]

/-- Configuration with row tolerance 0.7, used by the ordering
example. -/
def cfgRowTol : SegmentationConfig := ⟨0, 0, 0, 0, 0, 0, 7 / 10⟩

/-- Ordering example: column 0 box at y 12, x 40. -/
def sortBox1 : BoundingBox := ⟨40, 12, 20, 20⟩

/-- Ordering example: column 0 box at y 10, x 10. -/
def sortBox2 : BoundingBox := ⟨10, 10, 20, 20⟩

/-- Ordering example: column 0 box far below, y 200. -/
def sortBox3 : BoundingBox := ⟨10, 200, 20, 20⟩

/-- Ordering example: column 1 box at y 10. -/
def sortBox4 : BoundingBox := ⟨120, 10, 20, 20⟩

/-- Small configuration for concrete witnesses. -/
def cfgSmall : SegmentationConfig := ⟨1, 1, 2, 2, 3, 3, 1 / 2⟩

/-- Concrete exclusion mask for the scaled-pipeline witness. -/
def maskSmall : BoundingBox := ⟨5, 5, 10, 10⟩

/-- Concrete component statistics (background row first) for the
scaled-pipeline witness. -/
def statsSmall : List ComponentStat := [⟨0, 0, 50, 60⟩, ⟨2, 2, 8, 9⟩, ⟨30, 40, 12, 11⟩]

/-- Box touching the right and bottom image edges, for the crop
clamping witness. -/
def edgeBox : BoundingBox := ⟨40, 50, 10, 10⟩

/-- Box for the vertical split witness. -/
def splitBoxEx : BoundingBox := ⟨0, 0, 10, 5⟩

/-- Box for the post-processing counterexample. -/
def postBoxEx : BoundingBox := ⟨10, 10, 20, 20⟩
theorem notNestedPair_symm {a b : BoundingBox} (h : notNestedPair a b) : notNestedPair b a :=
  ⟨h.2, h.1⟩

theorem insertSorted_perm {α : Type} (cmp : α → α → ℚ) (a : α) :
    ∀ l : List α, (insertSorted cmp a l).Perm (a :: l)
  | [] => List.Perm.refl _
  | h :: t => by
    unfold insertSorted
    by_cases hc : cmp h a ≤ 0
    · rw [if_pos hc]
      exact ((insertSorted_perm cmp a t).cons h).trans (List.Perm.swap a h t)
    · rw [if_neg hc]

theorem foldl_insertSorted_perm {α : Type} (cmp : α → α → ℚ) :
    ∀ (l acc : List α), (l.foldl (fun acc a => insertSorted cmp a acc) acc).Perm (acc ++ l)
  | [], acc => by simp
  | x :: t, acc => by
    refine (foldl_insertSorted_perm cmp t (insertSorted cmp x acc)).trans ?_
    refine (((insertSorted_perm cmp x acc).append_right t).trans ?_)
    rw [List.cons_append]
    exact List.perm_middle.symm

theorem jsSortBy_perm {α : Type} (cmp : α → α → ℚ) (l : List α) :
    (jsSortBy cmp l).Perm l := by
  simpa using foldl_insertSorted_perm cmp l []

theorem insideB_self (b : BoundingBox) : insideB b b = true := by
  simp only [insideB, decide_eq_true_eq]
  refine ⟨by linarith, by linarith, by linarith, by linarith⟩

theorem inside_false_of_not_another {boxes : List BoundingBox} {i : ℕ} {b : BoundingBox}
    (h : isInsideAnother boxes i b = false) {q : ℕ × BoundingBox}
    (hq : q ∈ boxes.enum) (hne : i ≠ q.1) : insideB b q.2 = false := by
  unfold isInsideAnother at h
  rw [List.any_eq_false] at h
  have h2 := h q hq
  simp [hne] at h2
  exact h2

theorem enum_pairwise_fst_lt (boxes : List BoundingBox) :
    boxes.enum.Pairwise (fun p q => p.1 < q.1) := by
  have h1 : (List.map Prod.fst boxes.enum).Pairwise (fun a b => a < b) := by
    rw [List.enum_map_fst]
    exact List.pairwise_lt_range _
  exact List.pairwise_map.mp h1

theorem filterNestedBoxes_pairwise (boxes : List BoundingBox) :
    (filterNestedBoxes boxes).Pairwise notNestedPair := by
  unfold filterNestedBoxes
  rw [List.pairwise_map]
  have hfilt : (boxes.enum.filter fun p => ! isInsideAnother boxes p.1 p.2).Pairwise
      (fun p q => p.1 < q.1) :=
    List.Pairwise.sublist (List.filter_sublist _) (enum_pairwise_fst_lt boxes)
  refine hfilt.imp_of_mem ?_
  intro p q hp hq hlt
  obtain ⟨hpmem, hppred⟩ := List.mem_filter.mp hp
  obtain ⟨hqmem, hqpred⟩ := List.mem_filter.mp hq
  rw [Bool.not_eq_true'] at hppred hqpred
  exact ⟨inside_false_of_not_another hppred hqmem (Nat.ne_of_lt hlt),
    inside_false_of_not_another hqpred hpmem (Nat.ne_of_gt hlt)⟩

theorem filterNestedBoxes_eq_self {boxes : List BoundingBox}
    (h : boxes.Pairwise notNestedPair) : filterNestedBoxes boxes = boxes := by
  unfold filterNestedBoxes
  have hget := List.pairwise_iff_getElem.mp h
  have hall : ∀ p ∈ boxes.enum, (! isInsideAnother boxes p.1 p.2) = true := by
    intro p hp
    rw [Bool.not_eq_true']
    unfold isInsideAnother
    rw [List.any_eq_false]
    intro q hq
    obtain ⟨hplt, hpeq⟩ := List.getElem?_eq_some.mp (List.mem_enum_iff_getElem?.mp hp)
    obtain ⟨hqlt, hqeq⟩ := List.getElem?_eq_some.mp (List.mem_enum_iff_getElem?.mp hq)
    by_cases hne : p.1 = q.1
    · simp [hne]
    · have hfalse : insideB p.2 q.2 = false := by
        rcases lt_or_gt_of_ne hne with hlt | hgt
        · have := (hget p.1 q.1 hplt hqlt hlt).1
          rwa [hpeq, hqeq] at this
        · have := (hget q.1 p.1 hqlt hplt hgt).2
          rwa [hpeq, hqeq] at this
      simp [hfalse]
  rw [List.filter_eq_self.mpr hall, List.enum_map_snd]

theorem filterNestedBoxes_sublist (boxes : List BoundingBox) :
    List.Sublist (filterNestedBoxes boxes) boxes := by
  unfold filterNestedBoxes
  have h := List.Sublist.map Prod.snd
    (@List.filter_sublist _ (fun p => ! isInsideAnother boxes p.1 p.2) boxes.enum)
  rwa [List.enum_map_snd] at h
/-- Claim C1 (amended): when no column cuts and no paragraph cuts are
supplied, the refined region list contains no two regions nested within
the one pixel tolerance: the list is a reordering of the nesting filter
output, which is pairwise non-nested. -/
theorem refineBoxes_no_cuts_no_nesting (config : SegmentationConfig)
    (rawBoxes : List BoundingBox) :
    (refineBoxes config [] [] rawBoxes).Pairwise notNestedPair := by
  have hguards : refineBoxes config [] [] rawBoxes =
      jsSortBy (boxCmp (sortedAsc []) (avgHeight (filterNestedBoxes rawBoxes))
        config.yTolerance) (filterNestedBoxes rawBoxes) := rfl
  rw [hguards]
  exact ((jsSortBy_perm _ _).pairwise_iff fun h => notNestedPair_symm h).mpr
    (filterNestedBoxes_pairwise rawBoxes)

/-- Claim C1 (counterexample): with one paragraph cut at y 25 the two
overlapping raw boxes are refined into a list whose third entry is
contained in its fourth entry within the one pixel tolerance, so the
claimed invariant fails once cuts are involved: the nesting filter runs
before the cut stages and nothing reestablishes it afterwards. -/
theorem refineBoxes_with_cut_nested_pair :
    refineBoxes cfgNoTol [⟨25, 0⟩] [] rawOverlap =
      [⟨0, 0, 100, 25⟩, ⟨0, 20, 100, 5⟩, ⟨0, 25, 100, 5⟩, ⟨0, 25, 100, 55⟩] ∧
    insideB ⟨0, 25, 100, 5⟩ ⟨0, 25, 100, 55⟩ = true ∧
    (⟨0, 25, 100, 5⟩ : BoundingBox) ≠ ⟨0, 25, 100, 55⟩ ∧
    ¬ (refineBoxes cfgNoTol [⟨25, 0⟩] [] rawOverlap).Pairwise notNestedPair := by
  have heval : refineBoxes cfgNoTol [⟨25, 0⟩] [] rawOverlap =
      [⟨0, 0, 100, 25⟩, ⟨0, 20, 100, 5⟩, ⟨0, 25, 100, 5⟩, ⟨0, 25, 100, 55⟩] := by
    norm_num [refineBoxes, filterNestedBoxes, isInsideAnother, insideB, cfgNoTol, rawOverlap,
      splitBoxesV, splitBoxesH, applyCutsH, splitSegmentH, getColIdx, sortedAsc, jsSortBy,
      insertSorted, avgHeight, boxCmp, List.enum, List.enumFrom, List.filter,
      List.countP_cons, List.countP_nil]
  have hin : insideB ⟨0, 25, 100, 5⟩ ⟨0, 25, 100, 55⟩ = true := by norm_num [insideB]
  refine ⟨heval, hin, by simp, ?_⟩
  rw [heval]
  intro hpw
  have h34 := (List.pairwise_cons.mp ((List.pairwise_cons.mp
    ((List.pairwise_cons.mp hpw).2)).2)).1 ⟨0, 25, 100, 55⟩ (by simp)
  rw [h34.1] at hin
  exact Bool.false_ne_true hin
/-- Claim C9: the nesting filter keeps an entry exactly when it is not
contained (within tolerance) in an entry at another index of the
original input list: its output is a sublist of its input; two entries
that each contain the other are both removed, in particular two
identical boxes; and a second application changes nothing. -/
theorem filterNestedBoxes_behavior :
    (∀ boxes : List BoundingBox, List.Sublist (filterNestedBoxes boxes) boxes) ∧
    (∀ b1 b2 : BoundingBox, insideB b1 b2 = true → insideB b2 b1 = true →
      filterNestedBoxes [b1, b2] = []) ∧
    (∀ b : BoundingBox, filterNestedBoxes [b, b] = []) ∧
    (∀ boxes : List BoundingBox,
      filterNestedBoxes (filterNestedBoxes boxes) = filterNestedBoxes boxes) := by
  have hpair : ∀ b1 b2 : BoundingBox, insideB b1 b2 = true → insideB b2 b1 = true →
      filterNestedBoxes [b1, b2] = [] := by
    intro b1 b2 h1 h2
    simp [filterNestedBoxes, isInsideAnother, List.enum, List.enumFrom, List.filter, h1, h2]
  refine ⟨filterNestedBoxes_sublist, hpair,
    fun b => hpair b b (insideB_self b) (insideB_self b),
    fun boxes => filterNestedBoxes_eq_self (filterNestedBoxes_pairwise boxes)⟩

/-- Claim C9 (witness): two distinct boxes that mutually contain each
other within the one pixel tolerance are both removed. -/
theorem filterNestedBoxes_behavior_witness :
    filterNestedBoxes [⟨0, 0, 5, 5⟩, ⟨0, 0, 6, 6⟩] = [] :=
  filterNestedBoxes_behavior.2.1 ⟨0, 0, 5, 5⟩ ⟨0, 0, 6, 6⟩
    (by norm_num [insideB]) (by norm_num [insideB])
/-- Claim C2: buffer lifecycle evaluation.  On throw-free runs both
contexts release every acquired buffer; but when the cvtColor call of
the worker throws (operation 2), the catch clause posts the error with
all seven mats still unreleased, and when morphologyEx throws on the
main thread (operation 4), the finally block releases the six outer
mats but the structuring kernel leaks.  The code therefore does not
release every acquired buffer on every exit path. -/
theorem segment_buffer_release_evaluation :
    workerSegmentLive none = [] ∧
    mainSegmentLive none = [] ∧
    workerSegmentLive (some 2) =
      [BufName.centroids, BufName.statsBuf, BufName.labels, BufName.thresh,
       BufName.gray, BufName.workSrc, BufName.src] ∧
    workerSegmentLive (some 2) ≠ [] ∧
    mainSegmentLive (some 4) = [BufName.kernel] ∧
    mainSegmentLive (some 4) ≠ [] := by
  refine ⟨rfl, rfl, rfl, by decide, rfl, by decide⟩

/-- Claim C3 (counterexample): for a concrete crop the image the worker
encodes is the raw padded crop, not the grayscale plus 2 by 2 erosion
post-processed form the claim states for both contexts; the main thread
does produce the post-processed form on the same input. -/
theorem workerBlock_not_postprocessed :
    isGrayscaleErosionOfCrop (workerBlockImage 100 100 cfgSmall postBoxEx) = false ∧
    isGrayscaleErosionOfCrop (mainBlockImage 100 100 cfgSmall postBoxEx) = true ∧
    workerBlockImage 100 100 cfgSmall postBoxEx ≠ mainBlockImage 100 100 cfgSmall postBoxEx :=
  ⟨rfl, rfl, by simp [workerBlockImage, mainBlockImage]⟩

/-- Claim C3 (amended): the grayscale conversion followed by the 2 by 2
erosion is applied only in the main-thread segmentImage; the worker
encodes the raw padded crop, and the main-thread image is exactly the
post-processing of the worker image of the same input. -/
theorem mainBlock_postprocessed_workerBlock_raw (cols rows : ℚ)
    (config : SegmentationConfig) (box : BoundingBox) :
    mainBlockImage cols rows config box =
      ImgExpr.eroded 2 2 (ImgExpr.grayscale (workerBlockImage cols rows config box)) ∧
    isGrayscaleErosionOfCrop (mainBlockImage cols rows config box) = true ∧
    isGrayscaleErosionOfCrop (workerBlockImage cols rows config box) = false :=
  ⟨rfl, rfl, rfl⟩

/-- Claim C10: a segment message arriving while the OpenCV engine is
not yet loaded makes the worker handler return without posting
anything: no completion and no error report, whatever the outcome of
the processing block would have been; the structured error path only
covers outcomes of the try block when the engine is ready. -/
theorem segment_not_ready_posts_nothing :
    (∀ outcome : Except String Unit, handleSegmentMessage false outcome = []) ∧
    handleSegmentMessage true (Except.ok ()) = [WorkerOutMsg.segmentComplete] ∧
    (∀ e : String, handleSegmentMessage true (Except.error e) = [WorkerOutMsg.errorReport e]) :=
  ⟨fun _ => rfl, rfl, fun _ => rfl⟩
/-- Claim C6: a vertical cut strictly inside the x span of a box
replaces it with exactly the left part (original x and y, width up to
the cut) and the right part (starting at the cut, the remaining
width), the two widths summing to the original width; a cut at or
outside the edges leaves the box unchanged. -/
theorem splitSegmentV_two_parts_or_noop :
    ∀ (box : BoundingBox) (cutX : ℚ),
      (box.x < cutX → cutX < box.x + box.width →
        splitSegmentV cutX box =
          [⟨box.x, box.y, cutX - box.x, box.height⟩,
           ⟨cutX, box.y, box.x + box.width - cutX, box.height⟩] ∧
        (cutX - box.x) + (box.x + box.width - cutX) = box.width) ∧
      (¬ (box.x < cutX ∧ cutX < box.x + box.width) →
        splitSegmentV cutX box = [box]) := by
  intro box cutX
  constructor
  · intro h1 h2
    unfold splitSegmentV
    rw [if_pos ⟨h1, h2⟩]
    exact ⟨rfl, by ring⟩
  · intro h
    unfold splitSegmentV
    rw [if_neg h]

/-- Claim C6 (witness): the box from 0 to 10 split at 4 gives the two
parts of widths 4 and 6; a cut at its right edge changes nothing. -/
theorem splitSegmentV_two_parts_or_noop_witness :
    (splitSegmentV 4 splitBoxEx =
      [⟨splitBoxEx.x, splitBoxEx.y, 4 - splitBoxEx.x, splitBoxEx.height⟩,
       ⟨4, splitBoxEx.y, splitBoxEx.x + splitBoxEx.width - 4, splitBoxEx.height⟩] ∧
      (4 - splitBoxEx.x) + (splitBoxEx.x + splitBoxEx.width - 4) = splitBoxEx.width) ∧
    splitSegmentV 10 splitBoxEx = [splitBoxEx] :=
  ⟨(splitSegmentV_two_parts_or_noop splitBoxEx 4).1
      (by norm_num [splitBoxEx]) (by norm_num [splitBoxEx]),
    (splitSegmentV_two_parts_or_noop splitBoxEx 10).2 (by norm_num [splitBoxEx])⟩

/-- Claim C7: the column index of a box is the number of cut
x-coordinates strictly below the horizontal midpoint of the box
(sorting the cuts does not change that count), and on the sorted cuts
100 and 300 the midpoints 50, 150 and 350 land in columns 0, 1
and 2. -/
theorem getColIdx_counts_cuts_below_midpoint :
    (∀ (vCuts : List ℚ) (box : BoundingBox),
      getColIdx (sortedAsc vCuts) box =
        (vCuts.filter fun c => decide (c < box.x + box.width / 2)).length) ∧
    getColIdx (sortedAsc [100, 300]) ⟨45, 0, 10, 10⟩ = 0 ∧
    getColIdx (sortedAsc [100, 300]) ⟨145, 0, 10, 10⟩ = 1 ∧
    getColIdx (sortedAsc [100, 300]) ⟨345, 0, 10, 10⟩ = 2 := by
  refine ⟨?_, ?_, ?_, ?_⟩
  · intro vCuts box
    unfold getColIdx sortedAsc
    rw [(jsSortBy_perm (fun a b => a - b) vCuts).countP_eq]
    exact List.countP_eq_length_filter _ _
  all_goals
    norm_num [getColIdx, sortedAsc, jsSortBy, insertSorted,
      List.countP_cons, List.countP_nil]

/-- Claim C8: for a box with non-negative coordinates inside the image
and non-negative padding, the padded crop rectangle stays within the
image bounds on all four sides. -/
theorem cropRect_stays_within_image (cols rows : ℚ) (config : SegmentationConfig)
    (box : BoundingBox) (hx : 0 ≤ box.x) (hy : 0 ≤ box.y)
    (hw : box.x + box.width ≤ cols) (hh : box.y + box.height ≤ rows)
    (hpx : 0 ≤ config.padx) (hpy : 0 ≤ config.pady) :
    0 ≤ (cropRect cols rows config box).x ∧
    0 ≤ (cropRect cols rows config box).y ∧
    (cropRect cols rows config box).x + (cropRect cols rows config box).width ≤ cols ∧
    (cropRect cols rows config box).y + (cropRect cols rows config box).height ≤ rows := by
  unfold cropRect
  refine ⟨le_max_left _ _, le_max_left _ _, ?_, ?_⟩
  · have h1 := min_le_left (cols - max 0 (box.x - config.padx))
      (box.width + 2 * config.padx)
    linarith
  · have h1 := min_le_left (rows - max 0 (box.y - config.pady))
      (box.height + 2 * config.pady)
    linarith

/-- Claim C8 (witness): the box touching the right and bottom edges of
a 50 by 60 image, padded by 2, stays inside the image. -/
theorem cropRect_stays_within_image_witness :
    0 ≤ (cropRect 50 60 cfgSmall edgeBox).x ∧
    0 ≤ (cropRect 50 60 cfgSmall edgeBox).y ∧
    (cropRect 50 60 cfgSmall edgeBox).x + (cropRect 50 60 cfgSmall edgeBox).width ≤ 50 ∧
    (cropRect 50 60 cfgSmall edgeBox).y + (cropRect 50 60 cfgSmall edgeBox).height ≤ 60 :=
  cropRect_stays_within_image 50 60 cfgSmall edgeBox
    (by norm_num [edgeBox]) (by norm_num [edgeBox]) (by norm_num [edgeBox])
    (by norm_num [edgeBox]) (by norm_num [cfgSmall]) (by norm_num [cfgSmall])
/-- Claim C5: the final ordering comparator puts a lower column index
first; inside one column two boxes closer vertically than avgH times
yTolerance compare by x, other pairs by y; the mean height defaults to
25 on an empty list; and on the four example boxes (heights 20, cut at
100, yTolerance 0.7) the sorted output is the two row boxes by x, the
far box, then the column 1 box. -/
theorem boxSort_comparator_and_example :
    (∀ (cuts : List ℚ) (avgH yTol : ℚ) (a b : BoundingBox),
      getColIdx cuts a < getColIdx cuts b → boxCmp cuts avgH yTol a b < 0) ∧
    (∀ (cuts : List ℚ) (avgH yTol : ℚ) (a b : BoundingBox),
      getColIdx cuts a = getColIdx cuts b → |a.y - b.y| < avgH * yTol →
      boxCmp cuts avgH yTol a b = a.x - b.x) ∧
    (∀ (cuts : List ℚ) (avgH yTol : ℚ) (a b : BoundingBox),
      getColIdx cuts a = getColIdx cuts b → ¬ |a.y - b.y| < avgH * yTol →
      boxCmp cuts avgH yTol a b = a.y - b.y) ∧
    avgHeight [] = 25 ∧
    avgHeight (splitBoxesH (sortedAsc [100]) []
      (splitBoxesV [100] (filterNestedBoxes [sortBox1, sortBox2, sortBox3, sortBox4]))) = 20 ∧
    refineBoxes cfgRowTol [] [100] [sortBox1, sortBox2, sortBox3, sortBox4] =
      [sortBox2, sortBox1, sortBox3, sortBox4] := by
  refine ⟨?_, ?_, ?_, rfl, ?_, ?_⟩
  · intro cuts avgH yTol a b hlt
    simp only [boxCmp]
    rw [if_pos (Nat.ne_of_lt hlt)]
    have hcast : ((getColIdx cuts a : ℚ)) < ((getColIdx cuts b : ℚ)) := by
      exact_mod_cast hlt
    linarith
  · intro cuts avgH yTol a b heq hband
    simp only [boxCmp]
    rw [if_neg (by simp [heq]), if_pos hband]
  · intro cuts avgH yTol a b heq hband
    simp only [boxCmp]
    rw [if_neg (by simp [heq]), if_neg hband]
  · norm_num [filterNestedBoxes, isInsideAnother, insideB, sortBox1, sortBox2, sortBox3,
      sortBox4, splitBoxesV, applyCutsV, splitSegmentV, splitBoxesH, getColIdx, sortedAsc,
      jsSortBy, insertSorted, avgHeight, List.enum, List.enumFrom, List.filter,
      List.countP_cons, List.countP_nil]
  · norm_num [refineBoxes, filterNestedBoxes, isInsideAnother, insideB, sortBox1, sortBox2,
      sortBox3, sortBox4, cfgRowTol, splitBoxesV, applyCutsV, splitSegmentV, splitBoxesH,
      getColIdx, sortedAsc, jsSortBy, insertSorted, avgHeight, boxCmp, List.enum,
      List.enumFrom, List.filter, List.countP_cons, List.countP_nil]

/-- Claim C5 (witness): the comparator branches at concrete boxes with
avgH 20 and yTolerance 0.7: across columns negative, same row compares
by x, distant rows compare by y. -/
theorem boxSort_comparator_and_example_witness :
    boxCmp [100] 20 (7 / 10) sortBox2 sortBox4 < 0 ∧
    boxCmp [100] 20 (7 / 10) sortBox2 sortBox1 = sortBox2.x - sortBox1.x ∧
    boxCmp [100] 20 (7 / 10) sortBox2 sortBox3 = sortBox2.y - sortBox3.y :=
  ⟨boxSort_comparator_and_example.1 [100] 20 (7 / 10) sortBox2 sortBox4
      (by norm_num [getColIdx, sortBox2, sortBox4, List.countP_cons, List.countP_nil]),
    boxSort_comparator_and_example.2.1 [100] 20 (7 / 10) sortBox2 sortBox1
      (by norm_num [getColIdx, sortBox2, sortBox1, List.countP_cons, List.countP_nil])
      (by norm_num [sortBox2, sortBox1]),
    boxSort_comparator_and_example.2.2.1 [100] 20 (7 / 10) sortBox2 sortBox3
      (by norm_num [getColIdx, sortBox2, sortBox3, List.countP_cons, List.countP_nil])
      (by norm_num [sortBox2, sortBox3])⟩
/-- Claim C4: when the source width does not exceed the 1500 pixel
target, the worker picks scale 1, paints every exclusion mask with the
exact rectangle the main thread paints (rounded, clamped, degenerate
skipped), and its refined box geometry from any component statistics
agrees with the main thread: the scaled formulas collapse to the
unscaled ones at scale 1. -/
theorem worker_unscaled_consistent_with_main (srcCols : ℤ)
    (h : srcCols ≤ TARGET_WIDTH) (config : SegmentationConfig)
    (masks : List BoundingBox) (hCuts : List ColumnSpecificCut) (vCuts : List ℚ)
    (stats : List ComponentStat) (cols rows : ℤ) :
    scaleOf srcCols = 1 ∧
    maskPaintRectsWorker (scaleOf srcCols) cols rows masks =
      maskPaintRectsMain cols rows masks ∧
    workerRefined (scaleOf srcCols) config masks hCuts vCuts stats =
      mainRefined config masks hCuts vCuts stats := by
  have hs : scaleOf srcCols = 1 := by
    unfold scaleOf
    rw [if_neg (not_lt.mpr h)]
  refine ⟨hs, ?_, ?_⟩
  · rw [hs]
    unfold maskPaintRectsWorker maskPaintRectsMain
    simp only [mul_one]
  · rw [hs]
    unfold workerRefined mainRefined
    have hraw : rawBoxesWorker 1 config masks stats = rawBoxesMain config masks stats := by
      unfold rawBoxesWorker rawBoxesMain
      refine List.filterMap_congr ?_
      intro s hmem
      simp only [mul_one, div_one]
    rw [hraw]

/-- Claim C4 (witness): at source width 1000 the scale is 1 and the two
contexts agree on a concrete mask list and statistics table. -/
theorem worker_unscaled_consistent_with_main_witness :
    scaleOf 1000 = 1 ∧
    maskPaintRectsWorker (scaleOf 1000) 50 60 [maskSmall] =
      maskPaintRectsMain 50 60 [maskSmall] ∧
    workerRefined (scaleOf 1000) cfgSmall [maskSmall] [⟨3, 0⟩] [20] statsSmall =
      mainRefined cfgSmall [maskSmall] [⟨3, 0⟩] [20] statsSmall :=
  worker_unscaled_consistent_with_main 1000 (by decide) cfgSmall [maskSmall]
    [⟨3, 0⟩] [20] statsSmall 50 60
